import Mathlib

/-!
Verification of the greenLight movie-catalog backend core:
the pagination/filter planner (internal/data/filters.go), the
optimistic-concurrency movie store (internal/data movies model),
the partial-update handler (cmd/api/movies.go) and the per-client
token-bucket rate limiter.

Go machine integers are embedded as Int (no arithmetic here approaches
2^31/2^63); Go float64 arithmetic in the rate limiter and in
calculateMetadata is embedded as exact rational arithmetic; fallible
operations return Except; a Go panic is represented as Option.none.
-/

/-- Modelled from the spec: the helper package internal/validator is not under
src/ (only its callers are). Per the spec, every violation accumulates into a
structured validation-error result naming its field, and the whole request is
rejected listing every violation. Errors is a map from field name to message,
embedded as an association list; addError records a message for a field unless
that field already has one. -/
structure Validator where
  errors : List (String × String)
deriving Repr, DecidableEq

def Validator.new : Validator := ⟨[]⟩

def Validator.addError (v : Validator) (key message : String) : Validator :=
  if (v.errors.map Prod.fst).contains key then v
  else ⟨v.errors ++ [(key, message)]⟩

def Validator.check (v : Validator) (ok : Bool) (key message : String) : Validator :=
  if ok then v else v.addError key message

def Validator.valid (v : Validator) : Bool := v.errors.isEmpty

/-- Modelled from the spec: validator.In — exact string match against a list. -/
def validatorIn (value : String) (list : List String) : Bool := list.contains value

/-- internal/data/filters.go: Filters struct (Page, PageSize, Sort, SortSafelist). -/
structure Filters where
  page : Int
  pageSize : Int
  sort : String
  sortSafelist : List String
deriving Repr, DecidableEq

/-- internal/data/filters.go ValidateFilters: five Check calls in source order. -/
def ValidateFilters (v : Validator) (f : Filters) : Validator :=
  (((((v.check (decide (0 < f.page)) "page" "must be greater than zero").check
      (decide (f.page ≤ 10000000)) "page" "must be a maximum of 10 million").check
      (decide (0 < f.pageSize)) "page_size" "must be greater than zero").check
      (decide (f.pageSize ≤ 100)) "page_size" "must be a maximum of 100").check
      (validatorIn f.sort f.sortSafelist) "sort" "invalid sort value")

/-- strings.HasPrefix(s, "-"): the string begins with the one-character
descending marker; phrased on the character list so the kernel can evaluate it. -/
def startsDash (s : String) : Bool :=
  match s.data with
  | [] => false
  | c :: _ => c = '-'

/-- strings.TrimPrefix(s, "-"): drops one leading descending marker if present. -/
def trimDash (s : String) : String :=
  if startsDash s then ⟨s.data.drop 1⟩ else s

/-- internal/data/filters.go Filters.sortColumn: scans the safelist and returns
the Sort value with the marker trimmed on the first exact match; the panic on
fall-through is embedded as none. -/
def sortColumnLoop (sort : String) : List String → Option String
  | [] => none
  | safeValue :: rest =>
      if sort = safeValue then some (trimDash sort) else sortColumnLoop sort rest

def Filters.sortColumn (f : Filters) : Option String :=
  sortColumnLoop f.sort f.sortSafelist

/-- internal/data/filters.go Filters.sortDirection. -/
def Filters.sortDirection (f : Filters) : String :=
  if startsDash f.sort then "DESC" else "ASC"

/-- internal/data/filters.go Filters.limit. -/
def Filters.limit (f : Filters) : Int := f.pageSize

/-- internal/data/filters.go Filters.offset. -/
def Filters.offset (f : Filters) : Int := (f.page - 1) * f.pageSize

/-- internal/data/filters.go Metadata struct; the Go zero value is all-zero. -/
structure Metadata where
  currentPage : Int
  pageSize : Int
  firstPage : Int
  lastPage : Int
  totalRecords : Int
deriving Repr, DecidableEq

/-- internal/data/filters.go calculateMetadata; int(math.Ceil(float64(total) /
float64(pageSize))) is embedded as the integer ceiling division
(total + pageSize - 1) / pageSize, which equals the exact ceiling of the
quotient whenever total and pageSize are positive (theorem int_ceil_div below);
this treats the float64 arithmetic as exact, valid throughout the validated
range pageSize in 1..100. -/
def calculateMetadata (totalRecords page pageSize : Int) : Metadata :=
  if totalRecords = 0 then ⟨0, 0, 0, 0, 0⟩
  else
    { currentPage := page
      pageSize := pageSize
      firstPage := 1
      lastPage := (totalRecords + pageSize - 1) / pageSize
      totalRecords := totalRecords }

/-- The query plan GetAll builds (internal/data movies model): ORDER BY
sortColumn() sortDirection(), id ASC LIMIT limit() OFFSET offset(). -/
structure QueryPlan where
  sortCol : String
  sortDir : String
  tieBreakCol : String
  tieBreakDir : String
  planLimit : Int
  planOffset : Int
deriving Repr, DecidableEq

/-- MovieModel.GetAll query construction; the panic inside sortColumn on an
unsafe sort value propagates, embedded as none. -/
def MovieModel.getAllPlan (f : Filters) : Option QueryPlan :=
  match f.sortColumn with
  | none => none
  | some col =>
      some { sortCol := col
             sortDir := f.sortDirection
             tieBreakCol := "id"
             tieBreakDir := "ASC"
             planLimit := f.limit
             planOffset := f.offset }

deriving instance DecidableEq for Except

/-- Errors observable from the movie store. ErrRecordNotFound and
ErrEditConflict are the data package sentinel errors; sqlNoRows is
sql.ErrNoRows and deadlineExceeded is context.DeadlineExceeded, the error a
query returns when its context timeout expires. All four are distinct Go error
values. -/
inductive DataErr where
  | recordNotFound
  | editConflict
  | sqlNoRows
  | deadlineExceeded
deriving Repr, DecidableEq

/-- Movie struct (internal/data movies model); int32 and int64 fields are
embedded as Int, time.Time as an abstract Int instant. -/
structure Movie where
  id : Int
  createdAt : Int
  title : String
  year : Int
  runtime : Int
  genres : List String
  version : Int
deriving Repr, DecidableEq

/-- The movies table, as the list of stored rows. -/
structure MovieDB where
  rows : List Movie
deriving Repr, DecidableEq

/-- Per-operation context timeouts, in seconds, read off each
context.WithTimeout call in the movies model. -/
def insertTimeoutSeconds : Int := 3

def getTimeoutSeconds : Int := 3

def updateTimeoutSeconds : Int := 3

def deleteTimeoutSeconds : Int := 3

def getAllTimeoutSeconds : Int := 3

/-- MovieModel.Insert error path: the Scan error is returned verbatim. -/
def insertMapErr (e : DataErr) : DataErr := e

/-- MovieModel.Get error path: sql.ErrNoRows becomes ErrRecordNotFound, any
other error is returned verbatim. -/
def getMapErr : DataErr → DataErr
  | .sqlNoRows => .recordNotFound
  | e => e

/-- MovieModel.Update error path: sql.ErrNoRows becomes ErrEditConflict, any
other error is returned verbatim. -/
def updateMapErr : DataErr → DataErr
  | .sqlNoRows => .editConflict
  | e => e

/-- MovieModel.Delete and GetAll error path: the driver error is returned
verbatim. -/
def deleteMapErr (e : DataErr) : DataErr := e

def getAllMapErr (e : DataErr) : DataErr := e

/-- MovieModel.Get: the id < 1 guard, then SELECT ... WHERE id = $1; zero rows
(sql.ErrNoRows) maps to ErrRecordNotFound. -/
def MovieModel.Get (db : MovieDB) (id : Int) : Except DataErr Movie :=
  if id < 1 then .error .recordNotFound
  else
    match db.rows.find? (fun r => r.id == id) with
    | none => .error (getMapErr .sqlNoRows)
    | some r => .ok r

/-- Modelled from the spec: the SQL schema (migration files) is not under src/,
so the column defaults produced by INSERT ... RETURNING id, created_at, version
are taken from the spec's round-trip property, which fixes version = 1 for a
freshly inserted row; the store assigns the row id and creation instant.
MovieModel.Insert stores the payload fields of the argument and returns it
with ID, CreatedAt and Version filled from the returned row. -/
def MovieModel.Insert (db : MovieDB) (newId createdAt : Int) (movie : Movie) :
    MovieDB × Movie :=
  let stored : Movie :=
    { id := newId
      createdAt := createdAt
      title := movie.title
      year := movie.year
      runtime := movie.runtime
      genres := movie.genres
      version := 1 }
  (⟨db.rows ++ [stored]⟩, stored)

/-- The SET clause of the UPDATE statement, applied to a matched row: title,
year, runtime, genres from the request, version = version + 1; id and
created_at are not in the SET list. -/
def updateRow (m : Movie) (r : Movie) : Movie :=
  if r.id == m.id && r.version == m.version then
    { r with
      title := m.title
      year := m.year
      runtime := m.runtime
      genres := m.genres
      version := r.version + 1 }
  else r

/-- MovieModel.Update: UPDATE ... WHERE id = $5 AND version = $6 RETURNING
version; when zero rows match, QueryRowContext yields sql.ErrNoRows, mapped to
ErrEditConflict. On success the caller's movie.Version is overwritten with the
returned version. -/
def MovieModel.Update (db : MovieDB) (m : Movie) :
    Except DataErr (MovieDB × Movie) :=
  if db.rows.any (fun r => r.id == m.id && r.version == m.version) then
    .ok (⟨db.rows.map (updateRow m)⟩, { m with version := m.version + 1 })
  else .error (updateMapErr .sqlNoRows)

/-- The rows the DELETE ... WHERE id = $1 statement leaves behind. -/
def deleteRemaining (db : MovieDB) (id : Int) : List Movie :=
  db.rows.filter (fun r => !(r.id == id))

/-- result.RowsAffected() for the DELETE statement. -/
def deleteRowsAffected (db : MovieDB) (id : Int) : Nat :=
  db.rows.length - (deleteRemaining db id).length

/-- MovieModel.Delete: the id < 1 guard, then DELETE ... WHERE id = $1;
rowsAffected = 0 maps to ErrRecordNotFound. -/
def MovieModel.Delete (db : MovieDB) (id : Int) : Except DataErr MovieDB :=
  if id < 1 then .error .recordNotFound
  else if deleteRowsAffected db id == 0 then .error .recordNotFound
  else .ok ⟨deleteRemaining db id⟩

/-- Terminal responses a cmd/api/movies.go handler can produce. -/
inductive HandlerResponse where
  | okResponse
  | notFoundResponse
  | editConflictResponse
  | serverErrorResponse
  | failedValidationResponse
deriving Repr, DecidableEq

/-- cmd/api/movies.go updateMovieHandler, error dispatch after the
app.models.Movies.Update call: any non-nil error goes to
app.serverErrorResponse; there is no errors.Is switch on this path. -/
def updateMovieHandlerDispatch {α : Type} (res : Except DataErr α) :
    HandlerResponse :=
  match res with
  | .ok _ => .okResponse
  | .error _ => .serverErrorResponse

/-- cmd/api/movies.go updateMovieHandler, error dispatch after the
app.models.Movies.Get call: ErrRecordNotFound goes to notFoundResponse,
ErrEditConflict to editConflictResponse, anything else to serverErrorResponse. -/
def updateMovieHandlerGetDispatch {α : Type} (res : Except DataErr α) :
    HandlerResponse :=
  match res with
  | .ok _ => .okResponse
  | .error .recordNotFound => .notFoundResponse
  | .error .editConflict => .editConflictResponse
  | .error _ => .serverErrorResponse

/-- cmd/api/movies.go updateMovieHandler input struct: absent JSON keys leave
the pointer fields nil, embedded as none. -/
structure UpdateInput where
  title : Option String
  year : Option Int
  runtime : Option Int
  genres : Option (List String)
deriving Repr, DecidableEq

/-- cmd/api/movies.go updateMovieHandler: each non-nil input field overwrites
the fetched movie's field; nil fields leave it untouched. -/
def applyPartialUpdate (m : Movie) (input : UpdateInput) : Movie :=
  let m1 := match input.title with
    | some t => { m with title := t }
    | none => m
  let m2 := match input.year with
    | some y => { m1 with year := y }
    | none => m1
  let m3 := match input.runtime with
    | some rt => { m2 with runtime := rt }
    | none => m2
  match input.genres with
    | some g => { m3 with genres := g }
    | none => m3

/-- Modelled from the spec: the rate-limiter middleware is not under src/ (only
the route wiring that installs app.rateLimit is). Per the spec, a TokenBucket
holds capacity (the configured burst), a refill rate in tokens per second, the
current token level and the last refill instant; float64 arithmetic is
embedded as exact rational arithmetic. -/
structure BucketConfig where
  capacity : ℚ
  refillRate : ℚ
deriving DecidableEq

structure Bucket where
  tokens : ℚ
  lastRefill : ℚ
deriving DecidableEq

/-- Modelled from the spec: a bucket lazily created for a new client starts at
full capacity, so that exactly burst requests can be served at once. -/
def newBucket (cfg : BucketConfig) (now : ℚ) : Bucket :=
  ⟨cfg.capacity, now⟩

/-- Modelled from the spec: refill by elapsed * refillRate tokens since
lastRefill, capped at capacity. -/
def refill (cfg : BucketConfig) (b : Bucket) (now : ℚ) : ℚ :=
  min cfg.capacity (b.tokens + (now - b.lastRefill) * cfg.refillRate)

/-- Modelled from the spec: Allow refills the bucket, then if tokens ≥ 1
subtracts one and allows, else denies; lastRefill advances to now either way. -/
def allow (cfg : BucketConfig) (b : Bucket) (now : ℚ) : Bool × Bucket :=
  if 1 ≤ refill cfg b now then (true, ⟨refill cfg b now - 1, now⟩)
  else (false, ⟨refill cfg b now, now⟩)

/-- Number of allowed calls over a timed call sequence, threading the bucket. -/
def allowCount (cfg : BucketConfig) : Bucket → List ℚ → ℕ
  | _, [] => 0
  | b, t :: ts =>
    (if (allow cfg b t).1 then 1 else 0) + allowCount cfg (allow cfg b t).2 ts

/-- The sort allow-list installed by listMoviesHandler (cmd/api/movies.go). -/
def movieSortSafelist : List String :=
  ["id", "title", "year", "runtime", "-id", "-title", "-year", "-runtime"]

/-- Integer ceiling division agrees with the mathematical ceiling of the exact
quotient for a positive divisor. -/
theorem int_ceil_div (t p : Int) (hp : 0 < p) :
    (t + p - 1) / p = Int.ceil ((t : ℚ) / (p : ℚ)) := by
  have hmod := Int.emod_nonneg (t + p - 1) (ne_of_gt hp)
  have hmod2 := Int.emod_lt_of_pos (t + p - 1) hp
  have hdm := Int.ediv_add_emod (t + p - 1) p
  set z := (t + p - 1) / p with hz
  have h1 : p * z ≤ t + p - 1 := by omega
  have h2 : t - 1 < p * z := by omega
  have hpq : (0 : ℚ) < (p : ℚ) := by exact_mod_cast hp
  have h2' : t ≤ p * z := by omega
  have h1q : (p : ℚ) * (z : ℚ) ≤ (t : ℚ) + (p : ℚ) - 1 := by exact_mod_cast h1
  have h2q : (t : ℚ) ≤ (p : ℚ) * (z : ℚ) := by exact_mod_cast h2'
  symm
  rw [Int.ceil_eq_iff]
  constructor
  · rw [lt_div_iff₀ hpq]
    nlinarith
  · rw [div_le_iff₀ hpq]
    nlinarith

theorem allow_pos (cfg : BucketConfig) (b : Bucket) (t : ℚ)
    (h : 1 ≤ refill cfg b t) :
    allow cfg b t = (true, ⟨refill cfg b t - 1, t⟩) := by
  rw [allow, if_pos h]

theorem allow_neg (cfg : BucketConfig) (b : Bucket) (t : ℚ)
    (h : ¬ 1 ≤ refill cfg b t) :
    allow cfg b t = (false, ⟨refill cfg b t, t⟩) := by
  rw [allow, if_neg h]

theorem allowCount_cons_pos (cfg : BucketConfig) (b : Bucket) (t : ℚ)
    (ts : List ℚ) (h : 1 ≤ refill cfg b t) :
    allowCount cfg b (t :: ts) = 1 + allowCount cfg ⟨refill cfg b t - 1, t⟩ ts := by
  rw [allowCount, allow_pos cfg b t h]
  rfl

theorem allowCount_cons_neg (cfg : BucketConfig) (b : Bucket) (t : ℚ)
    (ts : List ℚ) (h : ¬ 1 ≤ refill cfg b t) :
    allowCount cfg b (t :: ts) = allowCount cfg ⟨refill cfg b t, t⟩ ts := by
  rw [allowCount, allow_neg cfg b t h]
  simp

/-- Conservation bound for the token bucket: over a nondecreasing call
sequence confined to the window ending at T, the number of allowed calls never
exceeds the starting token level plus the largest possible refill over the
window, because each refill step adds at most elapsed * refillRate tokens and
each allowed call consumes exactly one. -/
theorem allowCount_le (cfg : BucketConfig) (hrate : 0 ≤ cfg.refillRate)
    (ts : List ℚ) :
    ∀ b : Bucket,
      0 ≤ b.tokens → b.tokens ≤ cfg.capacity →
      List.Chain' (· ≤ ·) (b.lastRefill :: ts) →
      ∀ T, b.lastRefill ≤ T → (∀ u ∈ ts, u ≤ T) →
      (allowCount cfg b ts : ℚ) ≤ b.tokens + cfg.refillRate * (T - b.lastRefill) := by
  induction ts with
  | nil =>
    intro b h0 _ _ T hT _
    have hpos : 0 ≤ cfg.refillRate * (T - b.lastRefill) :=
      mul_nonneg hrate (by linarith)
    simp only [allowCount, Nat.cast_zero]
    linarith
  | cons t ts ih =>
    intro b h0 hcap hchain T hT hmem
    rw [List.chain'_cons] at hchain
    obtain ⟨hlt, hchain2⟩ := hchain
    have hcap0 : 0 ≤ cfg.capacity := le_trans h0 hcap
    have hrle : refill cfg b t ≤ b.tokens + (t - b.lastRefill) * cfg.refillRate :=
      min_le_right _ _
    have hrcap : refill cfg b t ≤ cfg.capacity := min_le_left _ _
    have hr0 : 0 ≤ refill cfg b t := by
      apply le_min hcap0
      have : 0 ≤ (t - b.lastRefill) * cfg.refillRate :=
        mul_nonneg (by linarith) hrate
      linarith
    have htT : t ≤ T := hmem t (List.mem_cons_self t ts)
    have hmem2 : ∀ u ∈ ts, u ≤ T := fun u hu => hmem u (List.mem_cons_of_mem t hu)
    have hring : (t - b.lastRefill) * cfg.refillRate + cfg.refillRate * (T - t)
        = cfg.refillRate * (T - b.lastRefill) := by ring
    by_cases hone : 1 ≤ refill cfg b t
    · rw [allowCount_cons_pos cfg b t ts hone]
      have ihb := ih ⟨refill cfg b t - 1, t⟩
        (by simp only; linarith) (by simp only; linarith)
        hchain2 T htT hmem2
      simp only at ihb
      push_cast
      linarith
    · rw [allowCount_cons_neg cfg b t ts hone]
      have ihb := ih ⟨refill cfg b t, t⟩
        (by simp only; linarith) (by simp only; linarith)
        hchain2 T htT hmem2
      simp only at ihb
      linarith

theorem addError_errors_ne (v : Validator) (k m : String) :
    (v.addError k m).errors ≠ [] := by
  rw [Validator.addError]
  split
  · next h =>
    intro he
    rw [he] at h
    simp at h
  · simp

theorem check_valid_true {v : Validator} {c : Bool} {k m : String}
    (h : (v.check c k m).valid = true) : v.valid = true ∧ c = true := by
  cases c with
  | true => exact ⟨h, rfl⟩
  | false =>
    exfalso
    rw [Validator.check, if_neg (by simp)] at h
    rw [Validator.valid, List.isEmpty_iff] at h
    exact addError_errors_ne v k m h

theorem validateFilters_valid_iff (f : Filters) :
    (ValidateFilters Validator.new f).valid = true ↔
      (0 < f.page ∧ f.page ≤ 10000000 ∧ 0 < f.pageSize ∧ f.pageSize ≤ 100 ∧
        f.sortSafelist.contains f.sort = true) := by
  constructor
  · intro h
    rw [ValidateFilters] at h
    obtain ⟨h, h5⟩ := check_valid_true h
    obtain ⟨h, h4⟩ := check_valid_true h
    obtain ⟨h, h3⟩ := check_valid_true h
    obtain ⟨h, h2⟩ := check_valid_true h
    obtain ⟨_, h1⟩ := check_valid_true h
    exact ⟨of_decide_eq_true h1, of_decide_eq_true h2, of_decide_eq_true h3,
      of_decide_eq_true h4, h5⟩
  · rintro ⟨h1, h2, h3, h4, h5⟩
    have h5m : f.sort ∈ f.sortSafelist := by simpa using h5
    simp [ValidateFilters, Validator.check, validatorIn, h1, h2, h3, h4, h5m,
      Validator.valid, Validator.new]

theorem sortColumnLoop_mem {sort : String} :
    ∀ {l : List String}, sort ∈ l → sortColumnLoop sort l = some (trimDash sort)
  | v :: rest, h => by
    rw [sortColumnLoop]
    by_cases he : sort = v
    · rw [if_pos he]
    · rw [if_neg he]
      exact sortColumnLoop_mem (by
        rcases List.mem_cons.mp h with h' | h'
        · exact absurd h' he
        · exact h')

theorem sortColumnLoop_not_mem {sort : String} :
    ∀ {l : List String}, sort ∉ l → sortColumnLoop sort l = none
  | [], _ => rfl
  | v :: rest, h => by
    rw [sortColumnLoop]
    rw [if_neg (fun he => h (by rw [he]; exact List.mem_cons_self v rest))]
    exact sortColumnLoop_not_mem (fun h' => h (List.mem_cons_of_mem v h'))

/-- C5: ValidateFilters accepts a FilterSpec exactly when page is in
[1, 10_000_000], pageSize is in [1, 100] and sort exactly matches an entry of
the allow-list; and page=0, page_size=500, sort="unknown" together yield a
validation result naming all three fields page, page_size and sort at once. -/
theorem c5_validate_filters_exact (f : Filters) :
    ((ValidateFilters Validator.new f).valid = true ↔
      (0 < f.page ∧ f.page ≤ 10000000 ∧ 0 < f.pageSize ∧ f.pageSize ≤ 100 ∧
        f.sortSafelist.contains f.sort = true)) ∧
    (ValidateFilters Validator.new
        ⟨0, 500, "unknown", movieSortSafelist⟩).errors.map Prod.fst =
      ["page", "page_size", "sort"] := by
  refine ⟨validateFilters_valid_iff f, ?_⟩
  decide

/-- C6: for a Sort value on the allow-list, sortColumn returns it with the
leading descending marker stripped (no panic) and sortDirection is DESC exactly
when the marker is present; sortColumn panics (none) exactly when the Sort
value is absent from the allow-list. -/
theorem c6_sort_column_safe (f : Filters) :
    (f.sort ∈ f.sortSafelist →
      f.sortColumn = some (trimDash f.sort) ∧
      (f.sortDirection = "DESC" ↔ startsDash f.sort = true) ∧
      (f.sortDirection = "ASC" ↔ ¬ startsDash f.sort = true)) ∧
    (f.sortColumn = none ↔ f.sort ∉ f.sortSafelist) := by
  constructor
  · intro hmem
    refine ⟨sortColumnLoop_mem hmem, ?_, ?_⟩
    · rw [Filters.sortDirection]
      by_cases hd : startsDash f.sort = true
      · rw [if_pos hd]
        exact ⟨fun _ => hd, fun _ => rfl⟩
      · rw [if_neg hd]
        exact ⟨fun h => absurd h (by decide), fun h => absurd h hd⟩
    · rw [Filters.sortDirection]
      by_cases hd : startsDash f.sort = true
      · rw [if_pos hd]
        exact ⟨fun h => absurd h (by decide), fun h => absurd hd h⟩
      · rw [if_neg hd]
        exact ⟨fun _ => hd, fun _ => rfl⟩
  · constructor
    · intro hnone hmem
      rw [Filters.sortColumn, sortColumnLoop_mem hmem] at hnone
      exact Option.noConfusion hnone
    · exact sortColumnLoop_not_mem

/-- c6 witness at Sort = "-title" against the movie allow-list. -/
theorem c6_sort_column_safe_witness :
    ("-title" ∈ movieSortSafelist) ∧
    (Filters.mk 1 20 "-title" movieSortSafelist).sortColumn = some "title" ∧
    (Filters.mk 1 20 "-title" movieSortSafelist).sortDirection = "DESC" := by
  have h := (c6_sort_column_safe ⟨1, 20, "-title", movieSortSafelist⟩).1 (by decide)
  refine ⟨by decide, ?_, ?_⟩
  · rw [h.1]
    decide
  · exact h.2.1.mpr (by decide)

/-- C3: for every FilterSpec accepted by ValidateFilters, the GetAll query plan
has limit = pageSize, offset = (page-1)*pageSize, primary order by the derived
sort column in the derived direction, and the ascending tie-break on id. -/
theorem c3_get_all_plan (f : Filters)
    (h : (ValidateFilters Validator.new f).valid = true) :
    MovieModel.getAllPlan f =
      some { sortCol := trimDash f.sort
             sortDir := if startsDash f.sort then "DESC" else "ASC"
             tieBreakCol := "id"
             tieBreakDir := "ASC"
             planLimit := f.pageSize
             planOffset := (f.page - 1) * f.pageSize } := by
  have hmem : f.sort ∈ f.sortSafelist := by
    have := (validateFilters_valid_iff f).mp h
    simpa using this.2.2.2.2
  rw [MovieModel.getAllPlan, Filters.sortColumn, sortColumnLoop_mem hmem]
  rfl

/-- c3 witness: a validated FilterSpec requesting page 3 of 25-per-page rows
sorted by descending year. -/
theorem c3_get_all_plan_witness :
    MovieModel.getAllPlan ⟨3, 25, "-year", movieSortSafelist⟩ =
      some ⟨"year", "DESC", "id", "ASC", 25, 50⟩ := by
  have h := c3_get_all_plan ⟨3, 25, "-year", movieSortSafelist⟩ (by decide)
  rw [h]
  decide

/-- C4: zero matched records produce the all-zero metadata; positive
totalRecords and pageSize produce currentPage = page, pageSize, firstPage = 1,
lastPage = ceil(totalRecords / pageSize) and totalRecords, so 25 records at
page size 10 give lastPage = 3. -/
theorem c4_calculate_metadata (t page p : Int) :
    (calculateMetadata 0 page p = ⟨0, 0, 0, 0, 0⟩) ∧
    (0 < t → 0 < p → calculateMetadata t page p =
      ⟨page, p, 1, Int.ceil ((t : ℚ) / (p : ℚ)), t⟩) ∧
    (calculateMetadata 25 1 10).lastPage = 3 := by
  refine ⟨by rw [calculateMetadata, if_pos rfl], ?_, by decide⟩
  intro ht hp
  rw [calculateMetadata, if_neg (by omega)]
  rw [← int_ceil_div t p hp]

/-- c4 witness: 25 records at page size 10, page 2. -/
theorem c4_calculate_metadata_witness :
    calculateMetadata 25 2 10 = ⟨2, 10, 1, Int.ceil ((25 : ℚ) / (10 : ℚ)), 25⟩ :=
  (c4_calculate_metadata 25 2 10).2.1 (by decide) (by decide)

/-- C8: Insert, Get, Update, Delete and GetAll all carry the same 3-second
context timeout, and a deadline-exceeded error passes through every
per-operation error switch unchanged, never collapsing into ErrRecordNotFound
or ErrEditConflict. -/
theorem c8_uniform_timeout_distinct :
    (insertTimeoutSeconds = 3 ∧ getTimeoutSeconds = 3 ∧ updateTimeoutSeconds = 3 ∧
      deleteTimeoutSeconds = 3 ∧ getAllTimeoutSeconds = 3) ∧
    (insertMapErr .deadlineExceeded = .deadlineExceeded ∧
      getMapErr .deadlineExceeded = .deadlineExceeded ∧
      updateMapErr .deadlineExceeded = .deadlineExceeded ∧
      deleteMapErr .deadlineExceeded = .deadlineExceeded ∧
      getAllMapErr .deadlineExceeded = .deadlineExceeded) ∧
    (DataErr.deadlineExceeded ≠ DataErr.recordNotFound ∧
      DataErr.deadlineExceeded ≠ DataErr.editConflict) := by
  decide

/-- C1: when the (id, expected version) pair matches zero stored rows, the
store reports ErrEditConflict, which is distinct from ErrRecordNotFound; but
updateMovieHandler's dispatch after the Update call sends every error,
ErrEditConflict included, to serverErrorResponse — the conflict reaches the
caller as an opaque internal failure, not as the edit-conflict response (the
editConflictResponse branch sits only on the Get path, where ErrEditConflict
never occurs). Shown at the concrete input: stored row id 1 at version 2,
update carrying expected version 1. -/
theorem c1_conflict_surfaced_as_server_error :
    MovieModel.Update ⟨[⟨1, 0, "Inception", 2010, 148, ["Sci-Fi"], 2⟩]⟩
        ⟨1, 0, "Inception", 2010, 148, ["Sci-Fi"], 1⟩ =
      .error DataErr.editConflict ∧
    DataErr.editConflict ≠ DataErr.recordNotFound ∧
    updateMovieHandlerDispatch
        (MovieModel.Update ⟨[⟨1, 0, "Inception", 2010, 148, ["Sci-Fi"], 2⟩]⟩
          ⟨1, 0, "Inception", 2010, 148, ["Sci-Fi"], 1⟩) =
      HandlerResponse.serverErrorResponse ∧
    HandlerResponse.serverErrorResponse ≠ HandlerResponse.editConflictResponse ∧
    updateMovieHandlerGetDispatch (Except.error DataErr.editConflict : Except DataErr Movie) =
      HandlerResponse.editConflictResponse := by
  decide

theorem length_filter_lt_of_mem {α : Type} (p : α → Bool) :
    ∀ (l : List α) (x : α), x ∈ l → p x = false → (l.filter p).length < l.length
  | a :: l, x, hx, hpx => by
    rcases List.mem_cons.mp hx with h | h
    · subst h
      rw [List.filter_cons_of_neg (by simp [hpx])]
      exact Nat.lt_succ_of_le (List.length_filter_le p l)
    · by_cases hpa : p a = true
      · rw [List.filter_cons_of_pos hpa]
        simpa using Nat.succ_lt_succ (length_filter_lt_of_mem p l x h hpx)
      · rw [List.filter_cons_of_neg (by simpa using hpa)]
        exact Nat.lt_succ_of_lt (length_filter_lt_of_mem p l x h hpx)

/-- C7: Delete on an id with no stored record — every id below 1 included —
reports ErrRecordNotFound and never success; Delete succeeds exactly when the
DELETE statement removed at least one row, that is, when the id passed the
guard and some stored row carries it. -/
theorem c7_delete_not_found (db : MovieDB) (id : Int) :
    ((id < 1 ∨ ¬ ∃ r ∈ db.rows, r.id = id) →
      MovieModel.Delete db id = .error .recordNotFound) ∧
    ((∃ db2, MovieModel.Delete db id = .ok db2) ↔
      (1 ≤ id ∧ ∃ r ∈ db.rows, r.id = id)) := by
  by_cases hid : id < 1
  · refine ⟨fun _ => by rw [MovieModel.Delete, if_pos hid], ?_, ?_⟩
    · rintro ⟨db2, hdb⟩
      rw [MovieModel.Delete, if_pos hid] at hdb
      exact Except.noConfusion hdb
    · rintro ⟨h1, _⟩
      omega
  · have hrem_le : (deleteRemaining db id).length ≤ db.rows.length :=
      List.length_filter_le _ _
    by_cases hex : ∃ r ∈ db.rows, r.id = id
    · have hlt : (deleteRemaining db id).length < db.rows.length := by
        obtain ⟨r, hr, hrid⟩ := hex
        exact length_filter_lt_of_mem _ db.rows r hr (by simp [hrid])
      have haff : ¬ (deleteRowsAffected db id == 0) = true := by
        rw [deleteRowsAffected]
        simp only [beq_iff_eq]
        omega
      refine ⟨?_, ?_, fun _ => ⟨⟨deleteRemaining db id⟩, ?_⟩⟩
      · rintro (h | h)
        · exact absurd h hid
        · exact absurd hex h
      · intro _
        exact ⟨by omega, hex⟩
      · rw [MovieModel.Delete, if_neg hid, if_neg haff]
    · have heq : deleteRemaining db id = db.rows := by
        rw [deleteRemaining]
        apply List.filter_eq_self.mpr
        intro a ha
        simp only [Bool.not_eq_true', beq_eq_false_iff_ne, ne_eq]
        intro hcontra
        exact hex ⟨a, ha, hcontra⟩
      have haff : (deleteRowsAffected db id == 0) = true := by
        rw [deleteRowsAffected, heq]
        simp
      refine ⟨fun _ => by rw [MovieModel.Delete, if_neg hid, if_pos haff], ?_, ?_⟩
      · rintro ⟨db2, hdb⟩
        rw [MovieModel.Delete, if_neg hid, if_pos haff] at hdb
        exact Except.noConfusion hdb
      · rintro ⟨_, h⟩
        exact absurd h hex

/-- c7 witness: deleting id 2 from a table holding only id 1. -/
theorem c7_delete_not_found_witness :
    MovieModel.Delete ⟨[⟨1, 0, "Dune", 2021, 155, ["Sci-Fi"], 1⟩]⟩ 2 =
      .error .recordNotFound ∧
    ¬ (1 ≤ (2 : Int) ∧ ∃ r ∈ [(⟨1, 0, "Dune", 2021, 155, ["Sci-Fi"], 1⟩ : Movie)], r.id = 2) := by
  have h := c7_delete_not_found ⟨[⟨1, 0, "Dune", 2021, 155, ["Sci-Fi"], 1⟩]⟩ 2
  refine ⟨h.1 (Or.inr (by decide)), ?_⟩
  intro hcon
  obtain ⟨db2, hdb⟩ := h.2.mpr ⟨hcon.1, hcon.2⟩
  rw [h.1 (Or.inr (by decide))] at hdb
  exact Except.noConfusion hdb

theorem find?_append_none {α : Type} (p : α → Bool) :
    ∀ (l1 l2 : List α), l1.find? p = none → (l1 ++ l2).find? p = l2.find? p
  | [], _, _ => rfl
  | a :: l1, l2, h => by
    by_cases hpa : p a = true
    · rw [List.find?_cons_of_pos _ hpa] at h
      exact Option.noConfusion h
    · have hpa' : ¬ p a := by simpa using hpa
      rw [List.find?_cons_of_neg _ hpa'] at h
      rw [List.cons_append, List.find?_cons_of_neg _ hpa']
      exact find?_append_none p l1 l2 h

/-- C9: Insert followed by Get on the returned id yields a stored record at
version 1 whose title, year, runtime and genres equal the inserted payload. -/
theorem c9_insert_get_roundtrip (db : MovieDB) (newId createdAt : Int) (m : Movie)
    (hid : 1 ≤ newId) (hfresh : ∀ r ∈ db.rows, r.id ≠ newId) :
    MovieModel.Get (MovieModel.Insert db newId createdAt m).1
        (MovieModel.Insert db newId createdAt m).2.id =
      .ok (MovieModel.Insert db newId createdAt m).2 ∧
    (MovieModel.Insert db newId createdAt m).2.version = 1 ∧
    (MovieModel.Insert db newId createdAt m).2.title = m.title ∧
    (MovieModel.Insert db newId createdAt m).2.year = m.year ∧
    (MovieModel.Insert db newId createdAt m).2.runtime = m.runtime ∧
    (MovieModel.Insert db newId createdAt m).2.genres = m.genres := by
  refine ⟨?_, rfl, rfl, rfl, rfl, rfl⟩
  show MovieModel.Get ⟨db.rows ++ [_]⟩ newId = _
  rw [MovieModel.Get, if_neg (by omega)]
  have hnone : db.rows.find? (fun r => r.id == newId) = none := by
    rw [List.find?_eq_none]
    intro r hr
    simpa using hfresh r hr
  rw [find?_append_none _ db.rows _ hnone]
  rw [List.find?_cons_of_pos _ (by simp)]
  rfl

/-- c9 witness: inserting a payload into the empty table at id 1. -/
theorem c9_insert_get_roundtrip_witness :
    MovieModel.Get (MovieModel.Insert ⟨[]⟩ 1 7 ⟨0, 0, "Arrival", 2016, 116, ["Sci-Fi"], 0⟩).1
        (MovieModel.Insert ⟨[]⟩ 1 7 ⟨0, 0, "Arrival", 2016, 116, ["Sci-Fi"], 0⟩).2.id =
      .ok (MovieModel.Insert ⟨[]⟩ 1 7 ⟨0, 0, "Arrival", 2016, 116, ["Sci-Fi"], 0⟩).2 ∧
    (MovieModel.Insert ⟨[]⟩ 1 7 ⟨0, 0, "Arrival", 2016, 116, ["Sci-Fi"], 0⟩).2.version = 1 :=
  ⟨(c9_insert_get_roundtrip ⟨[]⟩ 1 7 ⟨0, 0, "Arrival", 2016, 116, ["Sci-Fi"], 0⟩
      (by decide) (by decide)).1,
   (c9_insert_get_roundtrip ⟨[]⟩ 1 7 ⟨0, 0, "Arrival", 2016, 116, ["Sci-Fi"], 0⟩
      (by decide) (by decide)).2.1⟩

theorem applyPartial_id (m : Movie) (i : UpdateInput) :
    (applyPartialUpdate m i).id = m.id := by
  rcases i with ⟨t, y, rt, g⟩
  cases t <;> cases y <;> cases rt <;> cases g <;> rfl

theorem applyPartial_createdAt (m : Movie) (i : UpdateInput) :
    (applyPartialUpdate m i).createdAt = m.createdAt := by
  rcases i with ⟨t, y, rt, g⟩
  cases t <;> cases y <;> cases rt <;> cases g <;> rfl

theorem applyPartial_version (m : Movie) (i : UpdateInput) :
    (applyPartialUpdate m i).version = m.version := by
  rcases i with ⟨t, y, rt, g⟩
  cases t <;> cases y <;> cases rt <;> cases g <;> rfl

theorem applyPartial_title_none (m : Movie) (i : UpdateInput) (h : i.title = none) :
    (applyPartialUpdate m i).title = m.title := by
  rcases i with ⟨t, y, rt, g⟩
  cases t
  · cases y <;> cases rt <;> cases g <;> rfl
  · exact Option.noConfusion h

theorem applyPartial_year_none (m : Movie) (i : UpdateInput) (h : i.year = none) :
    (applyPartialUpdate m i).year = m.year := by
  rcases i with ⟨t, y, rt, g⟩
  cases y
  · cases t <;> cases rt <;> cases g <;> rfl
  · exact Option.noConfusion h

theorem applyPartial_runtime_none (m : Movie) (i : UpdateInput) (h : i.runtime = none) :
    (applyPartialUpdate m i).runtime = m.runtime := by
  rcases i with ⟨t, y, rt, g⟩
  cases rt
  · cases t <;> cases y <;> cases g <;> rfl
  · exact Option.noConfusion h

theorem applyPartial_genres_none (m : Movie) (i : UpdateInput) (h : i.genres = none) :
    (applyPartialUpdate m i).genres = m.genres := by
  rcases i with ⟨t, y, rt, g⟩
  cases g
  · cases t <;> cases y <;> cases rt <;> rfl
  · exact Option.noConfusion h

/-- C10: updating through the partial-update handler with some fields absent,
a successful Update leaves every absent field at its stored value, keeps id
and created_at unchanged, increments the version by exactly 1, and touches no
row other than the one matched by (id, version). -/
theorem c10_partial_update_frame (db : MovieDB) (r : Movie) (input : UpdateInput)
    (hr : r ∈ db.rows) :
    (MovieModel.Update db (applyPartialUpdate r input) =
      .ok (⟨db.rows.map (updateRow (applyPartialUpdate r input))⟩,
        { applyPartialUpdate r input with
            version := (applyPartialUpdate r input).version + 1 })) ∧
    (updateRow (applyPartialUpdate r input) r).id = r.id ∧
    (updateRow (applyPartialUpdate r input) r).createdAt = r.createdAt ∧
    (updateRow (applyPartialUpdate r input) r).version = r.version + 1 ∧
    (input.title = none → (updateRow (applyPartialUpdate r input) r).title = r.title) ∧
    (input.year = none → (updateRow (applyPartialUpdate r input) r).year = r.year) ∧
    (input.runtime = none →
      (updateRow (applyPartialUpdate r input) r).runtime = r.runtime) ∧
    (input.genres = none →
      (updateRow (applyPartialUpdate r input) r).genres = r.genres) ∧
    (∀ s : Movie, ¬ (s.id = r.id ∧ s.version = r.version) →
      updateRow (applyPartialUpdate r input) s = s) := by
  have hid := applyPartial_id r input
  have hca := applyPartial_createdAt r input
  have hv := applyPartial_version r input
  have hcond : (r.id == (applyPartialUpdate r input).id &&
      r.version == (applyPartialUpdate r input).version) = true := by
    rw [hid, hv]
    simp
  have hrow : updateRow (applyPartialUpdate r input) r =
      { r with
        title := (applyPartialUpdate r input).title
        year := (applyPartialUpdate r input).year
        runtime := (applyPartialUpdate r input).runtime
        genres := (applyPartialUpdate r input).genres
        version := r.version + 1 } := by
    rw [updateRow, if_pos hcond]
  have hany : (db.rows.any fun s => s.id == (applyPartialUpdate r input).id &&
      s.version == (applyPartialUpdate r input).version) = true := by
    rw [List.any_eq_true]
    exact ⟨r, hr, hcond⟩
  refine ⟨?_, ?_, ?_, ?_, ?_, ?_, ?_, ?_, ?_⟩
  · rw [MovieModel.Update, if_pos hany]
  · rw [hrow]
  · rw [hrow]
  · rw [hrow]
  · intro h
    rw [hrow]
    exact applyPartial_title_none r input h
  · intro h
    rw [hrow]
    exact applyPartial_year_none r input h
  · intro h
    rw [hrow]
    exact applyPartial_runtime_none r input h
  · intro h
    rw [hrow]
    exact applyPartial_genres_none r input h
  · intro s hs
    have hcond2 : ¬ ((s.id == (applyPartialUpdate r input).id &&
        s.version == (applyPartialUpdate r input).version) = true) := by
      rw [hid, hv]
      simp only [Bool.and_eq_true, beq_iff_eq]
      exact hs
    rw [updateRow, if_neg hcond2]

/-- c10 witness: a request carrying only a new title against a one-row table. -/
theorem c10_partial_update_frame_witness :
    (updateRow (applyPartialUpdate ⟨1, 5, "Dune", 2021, 155, ["Sci-Fi"], 3⟩
        ⟨some "Dune: Part One", none, none, none⟩)
      ⟨1, 5, "Dune", 2021, 155, ["Sci-Fi"], 3⟩).version = 3 + 1 ∧
    (updateRow (applyPartialUpdate ⟨1, 5, "Dune", 2021, 155, ["Sci-Fi"], 3⟩
        ⟨some "Dune: Part One", none, none, none⟩)
      ⟨1, 5, "Dune", 2021, 155, ["Sci-Fi"], 3⟩).genres = ["Sci-Fi"] := by
  have h := c10_partial_update_frame ⟨[⟨1, 5, "Dune", 2021, 155, ["Sci-Fi"], 3⟩]⟩
    ⟨1, 5, "Dune", 2021, 155, ["Sci-Fi"], 3⟩
    ⟨some "Dune: Part One", none, none, none⟩ (by decide)
  exact ⟨h.2.2.2.1, h.2.2.2.2.2.2.2.1 rfl⟩

theorem refill_mk (cfg : BucketConfig) (x l now : ℚ) :
    refill cfg ⟨x, l⟩ now = min cfg.capacity (x + (now - l) * cfg.refillRate) := rfl

/-- C2: starting from the full bucket a new client receives, any nondecreasing
call sequence confined to a window over which the total possible refill stays
below one token — calls arriving faster than the refill rate — yields at most
burst allowed calls; and from any denied call, a call exactly 1/refillRate
seconds later is allowed, while a further call at that same instant is denied
again, so exactly one extra call succeeds. -/
theorem c2_token_bucket_burst (cfg : BucketConfig) (burst : ℕ) (t0 T : ℚ)
    (ts : List ℚ) (b : Bucket) (t : ℚ) :
    (cfg.capacity = (burst : ℚ) → 0 ≤ cfg.refillRate →
      List.Chain' (· ≤ ·) (t0 :: ts) → (∀ u ∈ ts, u ≤ T) → t0 ≤ T →
      cfg.refillRate * (T - t0) < 1 →
      allowCount cfg (newBucket cfg t0) ts ≤ burst) ∧
    (0 < cfg.refillRate → 1 ≤ cfg.capacity →
      0 ≤ b.tokens → b.tokens ≤ cfg.capacity → b.lastRefill ≤ t →
      (allow cfg b t).1 = false →
      (allow cfg (allow cfg b t).2 (t + 1 / cfg.refillRate)).1 = true ∧
      (allow cfg (allow cfg (allow cfg b t).2 (t + 1 / cfg.refillRate)).2
          (t + 1 / cfg.refillRate)).1 = false) := by
  constructor
  · intro hcap hrate hchain hmem hT hwin
    have key := allowCount_le cfg hrate ts ⟨cfg.capacity, t0⟩
      (by simp only; rw [hcap]; exact Nat.cast_nonneg burst)
      (le_refl _) hchain T hT hmem
    simp only at key
    have heqb : allowCount cfg (newBucket cfg t0) ts
        = allowCount cfg ⟨cfg.capacity, t0⟩ ts := rfl
    have hlt : (allowCount cfg (newBucket cfg t0) ts : ℚ) < (burst : ℚ) + 1 := by
      rw [heqb]
      rw [hcap] at key ⊢
      linarith
    have hlt2 : allowCount cfg (newBucket cfg t0) ts < burst + 1 := by
      exact_mod_cast hlt
    omega
  · intro hratePos hcap1 htok0 htokCap hlast hden
    have hnle : ¬ 1 ≤ refill cfg b t := by
      intro hle
      rw [allow_pos cfg b t hle] at hden
      exact absurd hden (by simp)
    have hr1 : refill cfg b t < 1 := not_le.mp hnle
    have hrate0 : 0 ≤ cfg.refillRate := le_of_lt hratePos
    have hr0 : 0 ≤ refill cfg b t := by
      refine le_min (by linarith) ?_
      have h := mul_nonneg (sub_nonneg.mpr hlast) hrate0
      linarith
    have hne : cfg.refillRate ≠ 0 := ne_of_gt hratePos
    have hstep : refill cfg ⟨refill cfg b t, t⟩ (t + 1 / cfg.refillRate)
        = min cfg.capacity (refill cfg b t + 1) := by
      rw [refill_mk]
      congr 1
      have harg : t + 1 / cfg.refillRate - t = 1 / cfg.refillRate := by ring
      rw [harg, one_div_mul_cancel hne]
    have hge1 : 1 ≤ refill cfg ⟨refill cfg b t, t⟩ (t + 1 / cfg.refillRate) := by
      rw [hstep]
      exact le_min hcap1 (by linarith)
    rw [allow_neg cfg b t hnle]
    constructor
    · show (allow cfg ⟨refill cfg b t, t⟩ (t + 1 / cfg.refillRate)).1 = true
      rw [allow_pos _ _ _ hge1]
    · show (allow cfg
          (allow cfg ⟨refill cfg b t, t⟩ (t + 1 / cfg.refillRate)).2
          (t + 1 / cfg.refillRate)).1 = false
      rw [allow_pos _ _ _ hge1]
      show (allow cfg
          ⟨refill cfg ⟨refill cfg b t, t⟩ (t + 1 / cfg.refillRate) - 1,
            t + 1 / cfg.refillRate⟩
          (t + 1 / cfg.refillRate)).1 = false
      have hRcap : refill cfg ⟨refill cfg b t, t⟩ (t + 1 / cfg.refillRate) - 1
          ≤ cfg.capacity := by
        rw [hstep]
        have := min_le_left cfg.capacity (refill cfg b t + 1)
        linarith
      have h3 : refill cfg
          ⟨refill cfg ⟨refill cfg b t, t⟩ (t + 1 / cfg.refillRate) - 1,
            t + 1 / cfg.refillRate⟩
          (t + 1 / cfg.refillRate)
          = refill cfg ⟨refill cfg b t, t⟩ (t + 1 / cfg.refillRate) - 1 := by
        rw [refill_mk, sub_self, zero_mul, add_zero]
        exact min_eq_right hRcap
      have hlt1 : refill cfg ⟨refill cfg b t, t⟩ (t + 1 / cfg.refillRate) - 1 < 1 := by
        rw [hstep]
        have := min_le_right cfg.capacity (refill cfg b t + 1)
        linarith
      rw [allow_neg _ _ _ (by rw [h3]; linarith)]

/-- c2 witness: burst 1, rate 1 token per second, three same-instant calls,
then the post-denial schedule. -/
theorem c2_token_bucket_burst_witness :
    allowCount ⟨1, 1⟩ (newBucket ⟨1, 1⟩ 0) [0, 0] ≤ 1 ∧
    ((allow ⟨1, 1⟩ (allow ⟨1, 1⟩ ⟨0, 0⟩ 0).2 ((0 : ℚ) + 1 / 1)).1 = true ∧
      (allow ⟨1, 1⟩ (allow ⟨1, 1⟩ (allow ⟨1, 1⟩ ⟨0, 0⟩ 0).2 ((0 : ℚ) + 1 / 1)).2
          ((0 : ℚ) + 1 / 1)).1 = false) := by
  have h := c2_token_bucket_burst ⟨1, 1⟩ 1 0 0 [0, 0] ⟨0, 0⟩ 0
  have hr : refill ⟨1, 1⟩ ⟨0, 0⟩ (0 : ℚ) = 0 := by
    rw [refill_mk]
    simp [min_eq_right]
  refine ⟨h.1 (by simp) zero_le_one (by simp) (by simp) (le_refl 0) (by simp), ?_⟩
  exact h.2 zero_lt_one (le_refl 1) (le_refl 0) zero_le_one (le_refl 0)
    (by rw [allow_neg _ _ _ (by rw [hr]; exact not_le.mpr zero_lt_one)])
